import Mathlib

/-!
Verification development for `src/main/options-normalizer.js`.

The JavaScript module is a thin layer over the external `vnopts`
option-validation engine.  We embed it shallowly:

* JavaScript values are modelled by the inductive type `JSValue`
  (numbers as integers, which is all this module manipulates).
* Closures that the module installs on schema objects (the `validate`
  override, the `redirect` handler, the flag `preprocess`) are
  defunctionalized into data together with interpreter functions, so
  the place where each handler is attached is visible in the schema
  data structure.
* The external engine (`vnopts.normalize`) is not reimplemented; the
  normalizer is modelled as the function that builds the engine
  invocation (`EngineCall`).  Throwing JavaScript code is modelled with
  `Except String`.
* `leven` (the npm Levenshtein-distance package) is modelled by a
  Wagner–Fischer implementation, and the default JavaScript
  `Array.prototype.sort` on strings by a stable insertion sort over
  lexicographic character comparison.
-/

/-- Model of the JavaScript values this module manipulates. -/
inductive JSValue where
  | undef
  | null
  | bool (b : Bool)
  | num (n : Int)
  | str (s : String)
  | arr (elems : List JSValue)

/-- JavaScript truthiness for `JSValue` (arrays and other objects are
always truthy; `0`, `""`, `false`, `null`, `undefined` are falsy). -/
def jsTruthy : JSValue → Bool
  | .undef => false
  | .null => false
  | .bool b => b
  | .num n => n != 0
  | .str s => s != ""
  | .arr _ => true

/-- Model of JavaScript array-to-string conversion: elements joined by
`","`, with `null` and `undefined` elements rendered as `""`. -/
def jsArrString (xs : List JSValue) : String :=
  String.intercalate "," (xs.attach.map (fun e =>
    match e with
    | ⟨.undef, _⟩ => ""
    | ⟨.null, _⟩ => ""
    | ⟨.bool true, _⟩ => "true"
    | ⟨.bool false, _⟩ => "false"
    | ⟨.num n, _⟩ => toString n
    | ⟨.str t, _⟩ => t
    | ⟨.arr ys, _⟩ => jsArrString ys))
termination_by sizeOf xs
decreasing_by
  rename_i h
  have h1 := List.sizeOf_lt_of_mem h
  simp only [JSValue.arr.sizeOf_spec] at h1
  omega

/-- Model of JavaScript string conversion (used by template literals in
the CLI descriptor). -/
def jsToString : JSValue → String
  | .undef => "undefined"
  | .null => "null"
  | .bool true => "true"
  | .bool false => "false"
  | .num n => toString n
  | .str s => s
  | .arr xs => jsArrString xs

/-- JavaScript strict equality (`===`) between a value and a string
key: only an identical string compares equal. -/
def jsStrictEqString (v : JSValue) (s : String) : Bool :=
  match v with
  | .str t => t == s
  | _ => false

/-- One step of the Wagner–Fischer recurrence: given the character
`xc`, the remaining characters of the second word, the previous row
(diagonal entry first, then the rest) and the entry to the left,
produce the rest of the current row. -/
def levRowGo (xc : Char) : List Char → Nat → List Nat → Nat → List Nat
  | [], _, _, _ => []
  | y :: ys, diag, prevRest, left =>
    let above := prevRest.headD 0
    let cur := min (left + 1) (min (above + 1) (diag + (if xc = y then 0 else 1)))
    cur :: levRowGo xc ys above prevRest.tail cur

/-- Compute the next Wagner–Fischer row from the previous one. -/
def levRow (xc : Char) (ys : List Char) (prev : List Nat) : List Nat :=
  let p0 := prev.headD 0
  (p0 + 1) :: levRowGo xc ys p0 prev.tail (p0 + 1)

/-- Model of the external `leven` package: the Levenshtein edit
distance between two strings (insertions, deletions and substitutions
of single characters, each of cost 1). -/
def leven (a b : String) : Nat :=
  let ys := b.data
  (a.data.foldl (fun prev xc => levRow xc ys prev) (List.range (ys.length + 1))).getLastD 0

/-- Lexicographic (code-point) comparison of character lists; models the
string comparison used by the default JavaScript `Array.prototype.sort`. -/
def strLtB : List Char → List Char → Bool
  | [], [] => false
  | [], _ :: _ => true
  | _ :: _, [] => false
  | a :: as, b :: bs =>
    if a.toNat < b.toNat then true
    else if b.toNat < a.toNat then false
    else strLtB as bs

/-- Stable insertion of a string into a sorted list (a later-inserted
element lands after equal elements, as JavaScript's stable sort does). -/
def insertFlag (a : String) : List String → List String
  | [] => [a]
  | b :: bs => if strLtB a.data b.data then a :: b :: bs else b :: insertFlag a bs

/-- Model of `flags.slice().sort()`: a stable sort of the flag list. -/
def sortFlags (flags : List String) : List String :=
  flags.foldl (fun acc f => insertFlag f acc) []

theorem mem_insertFlag {x a : String} {l : List String} :
    x ∈ insertFlag a l ↔ x = a ∨ x ∈ l := by
  induction l with
  | nil => simp [insertFlag]
  | cons b bs ih =>
    by_cases h : strLtB a.data b.data
    · simp [insertFlag, h]
    · simp only [insertFlag, if_neg h, List.mem_cons, ih]
      tauto

theorem mem_foldl_insertFlag {x : String} :
    ∀ (l acc : List String),
      x ∈ l.foldl (fun acc f => insertFlag f acc) acc ↔ x ∈ acc ∨ x ∈ l := by
  intro l
  induction l with
  | nil => simp
  | cons b bs ih =>
    intro acc
    simp only [List.foldl_cons, ih, mem_insertFlag, List.mem_cons]
    tauto

theorem mem_sortFlags {x : String} {l : List String} :
    x ∈ sortFlags l ↔ x ∈ l := by
  simp [sortFlags, mem_foldl_insertFlag]

/-- A `redirect` declaration on an option descriptor:
`{option, value}`. -/
structure Redirect where
  option : String
  value : JSValue

/-- The engine-facing redirect target `{key, value}` (the contents of
the `to` field the module hands to the engine). -/
structure RedirectTo where
  key : String
  value : JSValue

/-- A choice record appearing in a descriptor's `choices` list
(`{value, redirect, deprecated, ...}`). -/
structure ChoiceRecord where
  value : JSValue := .undef
  redirect : Option JSValue := none
  deprecated : Bool := false

/-- An entry of a descriptor's `choices` list: either a primitive value
or a choice record. -/
inductive ChoiceInfo where
  | prim (v : JSValue)
  | obj (r : ChoiceRecord)

/-- A choices entry after `optionInfoToSchema` has rewritten it: passed
through unchanged, or rebuilt with the engine-shaped redirect
`{to: {key, value}}`. -/
inductive ChoiceEntry where
  | unchanged (c : ChoiceInfo)
  | redirected (value : JSValue) (target : RedirectTo) (deprecated : Bool)

/-- An option descriptor.  Optional JavaScript fields are modelled with
`Option` (`none` = absent/undefined); `type` stays a string, exactly as
the code's `switch` sees it. -/
structure OptionInfo where
  name : String := ""
  type : String := ""
  array : Bool := false
  -- the source calls this field `alias`; that word is reserved here
  aliasName : Option String := none
  choices : List ChoiceInfo := []
  description : Option String := none
  oppositeDescription : Option String := none
  exception : Option (JSValue → Bool) := none
  redirect : Option Redirect := none
  deprecated : Bool := false

/-- Truthiness of an optional string field (absent and `""` are falsy). -/
def optStrTruthy : Option String → Bool
  | some s => s != ""
  | none => false

/-! ### Descriptor strategies -/

/-- Which key/value/pair rendering strategy is handed to the engine. -/
inductive DescriptorStrategy where
  | api
  | cli
deriving DecidableEq

/-- `cliDescriptor.key`: single-character names render as `-x`, longer
names as `--name`. -/
def cliKey (key : String) : String :=
  if key.length = 1 then "-" ++ key else "--" ++ key

/-- `cliDescriptor.value`: delegates to the engine's generic renderer
(supplied here as an argument, since `vnopts.apiDescriptor.value` is an
external collaborator). -/
def cliValue (apiValue : JSValue → String) (value : JSValue) : String :=
  apiValue value

/-- `cliDescriptor.pair`: `false` renders as `--no-key`, `true` as the
rendered key, `""` as the rendered key followed by
" without an argument", anything else as `key=value`. -/
def cliPair (key : String) (value : JSValue) : String :=
  match value with
  | .bool false => "--no-" ++ key
  | .bool true => cliKey key
  | .str s =>
    if s = "" then cliKey key ++ " without an argument"
    else cliKey key ++ "=" ++ jsToString (JSValue.str s)
  | v => cliKey key ++ "=" ++ jsToString v

/-! ### Flag schema -/

/-- The pieces of `utils` that `FlagSchema.preprocess` consults: the
active descriptor strategy's value renderer.  Logging is modelled by
the writer-style second component of `preprocess`'s result. -/
structure FlagUtils where
  descriptorValue : JSValue → String

/-- `chalk.yellow`: wraps a string in ANSI color escapes. -/
def chalkYellow (s : String) : String := "\x1b[33m" ++ s ++ "\x1b[39m"

/-- `chalk.blue`: wraps a string in ANSI color escapes. -/
def chalkBlue (s : String) : String := "\x1b[34m" ++ s ++ "\x1b[39m"

/-- The warning message `FlagSchema.preprocess` logs when it replaces
an unknown flag value by a close suggestion. -/
def flagWarning (utils : FlagUtils) (value : JSValue) (suggestion : String) : String :=
  "Unknown flag " ++ chalkYellow (utils.descriptorValue value) ++ "," ++ " " ++
    "did you mean " ++ chalkBlue (utils.descriptorValue (JSValue.str suggestion)) ++ "?"

/-- The state of a `FlagSchema` instance: the choice universe passed to
the superclass constructor, and the sorted copy kept in `_flags`. -/
structure FlagSchemaData where
  name : String
  choices : List String
  sortedFlags : List String

/-- The `FlagSchema` constructor: passes the flags through as choices
and stores `flags.slice().sort()` in `_flags`. -/
def FlagSchemaData.make (name : String) (flags : List String) : FlagSchemaData :=
  { name, choices := flags, sortedFlags := sortFlags flags }

/-- `FlagSchema.preprocess`.  A non-empty string value that is not a
known flag is checked against the sorted flags for the first one at
Levenshtein distance `< 3`; a truthy (non-empty) find is logged and
returned in place of the value.  The second component of the result
collects the `utils.logger.warn` calls. -/
def FlagSchemaData.preprocess (d : FlagSchemaData) (value : JSValue) (utils : FlagUtils) :
    JSValue × List String :=
  match value with
  | JSValue.str s =>
    if s.length ≠ 0 ∧ s ∉ d.sortedFlags then
      match d.sortedFlags.find? (fun flag => decide (leven flag s < 3)) with
      | some suggestion =>
        if suggestion ≠ "" then
          (JSValue.str suggestion, [flagWarning utils (JSValue.str s) suggestion])
        else
          (JSValue.str s, [])
      | none => (JSValue.str s, [])
    else
      (JSValue.str s, [])
  | v => (v, [])

/-- `FlagSchema.expected`. -/
def FlagSchemaData.expected (_ : FlagSchemaData) : String := "a flag"

/-! ### Schema builder -/

/-- The five recognized constructors chosen by the `switch` on
`optionInfo.type`. -/
inductive SchemaKind where
  | int
  | choice
  | boolean
  | flag
  | path
deriving DecidableEq

/-- The `validate` closure installed on `parameters`, defunctionalized:
either `value => exception(value) || schema.validate(value, utils)` or
`value => value === undefined || schema.validate(value, utils)`. -/
inductive ValidateWrapper where
  | exceptionOr (p : JSValue → Bool)
  | undefOr

/-- Interpreter for `ValidateWrapper`: `base` is the schema's normal
validation (`schema.validate`). -/
def ValidateWrapper.run : ValidateWrapper → (JSValue → Bool) → JSValue → Bool
  | .exceptionOr p, base, v => p v || base v
  | .undefOr, base, v =>
    match v with
    | .undef => true
    | w => base w

/-- The `validate` closure `optionInfoToSchema` installs for a
descriptor. -/
def validateWrapperOf (info : OptionInfo) : ValidateWrapper :=
  match info.exception with
  | some p => .exceptionOr p
  | none => .undefOr

/-- Interpreter for the `redirect` handler installed when a descriptor
declares a `redirect`: falsy values yield `undefined`, truthy values
yield `{to: {key: redirect.option, value: redirect.value}}` (the
result's `to` contents are the returned `RedirectTo`). -/
def runRedirectHandler (r : Redirect) (value : JSValue) : Option RedirectTo :=
  if !jsTruthy value then none
  else some { key := r.option, value := r.value }

/-- The parameters a non-array schema constructor receives
(`Object.assign({}, parameters, handlers)`): name, kind-specific
parameters, the `validate` wrapper, and the handlers. -/
structure BaseSchema where
  name : String
  kind : SchemaKind
  numberPreprocess : Bool := false
  choices : List ChoiceEntry := []
  flags : List String := []
  validate : ValidateWrapper
  redirect : Option Redirect := none
  deprecated : Bool := false

/-- The parameters `ArraySchema.create` receives: the CLI
scalar-to-array coercion `preprocess`, the handlers, and the wrapped
value schema (note: no `name` and no `validate` of its own). -/
structure ArraySchemaData where
  concatPreprocess : Bool := false
  redirect : Option Redirect := none
  deprecated : Bool := false
  valueSchema : BaseSchema

/-- A schema instance handed to the engine. -/
inductive Schema where
  | anySchema (name : String)
  | aliasSchema (name sourceName : String)
  | base (b : BaseSchema)
  | array (a : ArraySchemaData)

/-- The rewrite `optionInfoToSchema` applies to each choices entry: a
choice record with a truthy `redirect` is rebuilt with
`redirect: {to: {key: <option name>, value: <old redirect>}}`; anything
else passes through unchanged. -/
def mapChoiceInfo (name : String) : ChoiceInfo → ChoiceEntry
  | .prim v => .unchanged (.prim v)
  | .obj r =>
    match r.redirect with
    | some rv =>
      if jsTruthy rv then .redirected r.value { key := name, value := rv } r.deprecated
      else .unchanged (.obj r)
    | none => .unchanged (.obj r)

/-- The contribution of one descriptor to the flag universe:
`[].concat(optionInfo.alias || [], description ? name : [],
oppositeDescription ? "no-" + name : [])` (all three guards are
JavaScript truthiness tests). -/
def descriptorFlags (info : OptionInfo) : List String :=
  (match info.aliasName with
    | some a => if a = "" then [] else [a]
    | none => []) ++
  (if optStrTruthy info.description then [info.name] else []) ++
  (if optStrTruthy info.oppositeDescription then ["no-" ++ info.name] else [])

/-- The flag universe: the per-descriptor contributions of the full
descriptor list, concatenated in order
(`optionInfos.map(...).reduce((a, b) => a.concat(b), [])`). -/
def collectFlags (optionInfos : List OptionInfo) : List String :=
  (optionInfos.map descriptorFlags).foldl (fun a b => a ++ b) []

/-- The tail of `optionInfoToSchema` common to the five recognized
types: the array wrapping.  With `array` set, the handlers go on the
array schema and the parameters (including `validate`) on the value
schema; otherwise parameters and handlers are merged into one
constructor call. -/
def finishSchema (info : OptionInfo) (isCLI : Bool) (base : BaseSchema) : Schema :=
  if info.array then
    .array { concatPreprocess := isCLI, redirect := info.redirect,
             deprecated := info.deprecated, valueSchema := base }
  else
    .base { base with redirect := info.redirect, deprecated := info.deprecated }

/-- `optionInfoToSchema`: the `switch` on `optionInfo.type` choosing a
constructor and its parameters; an unrecognized type throws
`Unexpected type <type>`. -/
def optionInfoToSchema (info : OptionInfo) (isCLI : Bool) (optionInfos : List OptionInfo) :
    Except String Schema :=
  if info.type = "int" then
    .ok (finishSchema info isCLI
      { name := info.name, kind := .int, numberPreprocess := isCLI,
        validate := validateWrapperOf info })
  else if info.type = "choice" then
    .ok (finishSchema info isCLI
      { name := info.name, kind := .choice,
        choices := info.choices.map (mapChoiceInfo info.name),
        validate := validateWrapperOf info })
  else if info.type = "boolean" then
    .ok (finishSchema info isCLI
      { name := info.name, kind := .boolean, validate := validateWrapperOf info })
  else if info.type = "flag" then
    .ok (finishSchema info isCLI
      { name := info.name, kind := .flag, flags := collectFlags optionInfos,
        validate := validateWrapperOf info })
  else if info.type = "path" then
    .ok (finishSchema info isCLI
      { name := info.name, kind := .path, validate := validateWrapperOf info })
  else
    .error ("Unexpected type " ++ info.type)

/-- The loop body of `optionInfosToSchemas`: each descriptor's primary
schema, followed (in CLI mode, for a truthy alias) by an alias schema. -/
def schemasForInfos (optionInfos : List OptionInfo) (isCLI : Bool) :
    List OptionInfo → Except String (List Schema)
  | [] => .ok []
  | info :: rest =>
    match optionInfoToSchema info isCLI optionInfos with
    | .error e => .error e
    | .ok s =>
      match schemasForInfos optionInfos isCLI rest with
      | .error e => .error e
      | .ok tail =>
        .ok (s :: ((match info.aliasName with
              | some a => if a ≠ "" ∧ isCLI then [Schema.aliasSchema a info.name] else []
              | none => []) ++ tail))

/-- `optionInfosToSchemas`: in CLI mode a catch-all `_` schema is
prepended for positional arguments. -/
def optionInfosToSchemas (optionInfos : List OptionInfo) (isCLI : Bool) :
    Except String (List Schema) :=
  match schemasForInfos optionInfos isCLI optionInfos with
  | .error e => .error e
  | .ok ss => .ok ((if isCLI then [Schema.anySchema "_"] else []) ++ ss)

/-! ### Normalizer -/

/-- The `unknown` handler handed to the engine, defunctionalized.
`levenUnknown` stands for the engine's built-in
`vnopts.levenUnknownHandler` (external, not reimplemented). -/
inductive UnknownHandler where
  | levenUnknown
  | passList (names : List JSValue)
  | passAll

/-- Interpreter for the two handlers this module builds itself; the
engine's built-in handler is external, hence `none` for it.
`passList` keeps a key contained in the list (`indexOf(key) !== -1`) as
`{key: value}` and drops other keys (`undefined`); `passAll` keeps
every key. -/
def UnknownHandler.applyCustom :
    UnknownHandler → String → JSValue → Option (Option (String × JSValue))
  | .levenUnknown, _, _ => none
  | .passList names, key, value =>
    some (if names.any (fun n => jsStrictEqString n key) then some (key, value) else none)
  | .passAll, key, value => some (some (key, value))

/-- The unknown-option policy: falsy `passThrough` selects the built-in
handler, an array selects the keep-listed-keys handler, any other
truthy value selects the keep-all handler. -/
def selectUnknown (passThrough : JSValue) : UnknownHandler :=
  if !jsTruthy passThrough then .levenUnknown
  else
    match passThrough with
    | .arr names => .passList names
    | _ => .passAll

/-- The settings object of `normalizeOptions`
(`{logger, isCLI = false, passThrough = false}`); `none` fields are
absent, so the destructuring defaults apply. -/
structure NormalizeArgs where
  logger : Option JSValue := none
  isCLI : Option Bool := none
  passThrough : Option JSValue := none

/-- The invocation of the external engine that `normalizeOptions`
builds: `vnopts.normalize(options, schemas, {logger, unknown,
descriptor})`. -/
structure EngineCall where
  options : List (String × JSValue)
  schemas : List Schema
  logger : Option JSValue := none
  unknown : UnknownHandler
  descriptor : DescriptorStrategy

/-- `normalizeOptions`: resolves the settings defaults, selects the
unknown-option policy and the descriptor strategy, builds the schemas
(which may throw before the engine ever sees `options`) and delegates
to the engine. -/
def normalizeOptions (options : List (String × JSValue)) (optionInfos : List OptionInfo)
    (opts : NormalizeArgs) : Except String EngineCall :=
  let isCLI := opts.isCLI.getD false
  let passThrough := opts.passThrough.getD (JSValue.bool false)
  let unknown := selectUnknown passThrough
  let descriptor := if isCLI then DescriptorStrategy.cli else DescriptorStrategy.api
  match optionInfosToSchemas optionInfos isCLI with
  | .error e => .error e
  | .ok schemas => .ok { options, schemas, logger := opts.logger, unknown, descriptor }

/-- `normalizeApiOptions`: passes its arguments straight through to
`normalizeOptions`. -/
def normalizeApiOptions (options : List (String × JSValue)) (optionInfos : List OptionInfo)
    (opts : NormalizeArgs) : Except String EngineCall :=
  normalizeOptions options optionInfos opts

/-- `normalizeCliOptions`: `Object.assign({isCLI: true}, opts)` — the
default `isCLI: true` is overridden by any `isCLI` present in `opts`. -/
def normalizeCliOptions (options : List (String × JSValue)) (optionInfos : List OptionInfo)
    (opts : NormalizeArgs) : Except String EngineCall :=
  normalizeOptions options optionInfos
    { logger := opts.logger, isCLI := some (opts.isCLI.getD true),
      passThrough := opts.passThrough }

/-! ### Helper lemmas about the schema builder -/

/-- The five recognized values of a descriptor's `type`. -/
def supportedTypes : List String := ["int", "choice", "boolean", "flag", "path"]

/-- The `validate` wrapper carried by a schema (on the value schema for
an array schema). -/
def schemaValidate : Schema → Option ValidateWrapper
  | .base b => some b.validate
  | .array a => some a.valueSchema.validate
  | _ => none

/-- The redirect record carried by a schema (on the array schema itself
for an array schema). -/
def schemaRedirect : Schema → Option Redirect
  | .base b => b.redirect
  | .array a => a.redirect
  | _ => none

theorem schemaValidate_finishSchema (info : OptionInfo) (isCLI : Bool) (b : BaseSchema) :
    schemaValidate (finishSchema info isCLI b) = some b.validate := by
  unfold finishSchema
  by_cases h : info.array <;> simp [h, schemaValidate]

theorem schemaRedirect_finishSchema (info : OptionInfo) (isCLI : Bool) (b : BaseSchema) :
    schemaRedirect (finishSchema info isCLI b) = info.redirect := by
  unfold finishSchema
  by_cases h : info.array <;> simp [h, schemaRedirect]

theorem toSchema_of_type_int {info : OptionInfo} (isCLI : Bool) (optionInfos : List OptionInfo)
    (h : info.type = "int") :
    optionInfoToSchema info isCLI optionInfos =
      .ok (finishSchema info isCLI
        { name := info.name, kind := .int, numberPreprocess := isCLI,
          validate := validateWrapperOf info }) := by
  unfold optionInfoToSchema
  rw [if_pos h]

theorem toSchema_of_type_choice {info : OptionInfo} (isCLI : Bool) (optionInfos : List OptionInfo)
    (h : info.type = "choice") :
    optionInfoToSchema info isCLI optionInfos =
      .ok (finishSchema info isCLI
        { name := info.name, kind := .choice,
          choices := info.choices.map (mapChoiceInfo info.name),
          validate := validateWrapperOf info }) := by
  unfold optionInfoToSchema
  rw [if_neg (by rw [h]; decide), if_pos h]

theorem toSchema_of_type_boolean {info : OptionInfo} (isCLI : Bool) (optionInfos : List OptionInfo)
    (h : info.type = "boolean") :
    optionInfoToSchema info isCLI optionInfos =
      .ok (finishSchema info isCLI
        { name := info.name, kind := .boolean, validate := validateWrapperOf info }) := by
  unfold optionInfoToSchema
  rw [if_neg (by rw [h]; decide), if_neg (by rw [h]; decide), if_pos h]

theorem toSchema_of_type_flag {info : OptionInfo} (isCLI : Bool) (optionInfos : List OptionInfo)
    (h : info.type = "flag") :
    optionInfoToSchema info isCLI optionInfos =
      .ok (finishSchema info isCLI
        { name := info.name, kind := .flag, flags := collectFlags optionInfos,
          validate := validateWrapperOf info }) := by
  unfold optionInfoToSchema
  rw [if_neg (by rw [h]; decide), if_neg (by rw [h]; decide), if_neg (by rw [h]; decide),
    if_pos h]

theorem toSchema_of_type_path {info : OptionInfo} (isCLI : Bool) (optionInfos : List OptionInfo)
    (h : info.type = "path") :
    optionInfoToSchema info isCLI optionInfos =
      .ok (finishSchema info isCLI
        { name := info.name, kind := .path, validate := validateWrapperOf info }) := by
  unfold optionInfoToSchema
  rw [if_neg (by rw [h]; decide), if_neg (by rw [h]; decide), if_neg (by rw [h]; decide),
    if_neg (by rw [h]; decide), if_pos h]

theorem toSchema_of_type_unknown {info : OptionInfo} (isCLI : Bool) (optionInfos : List OptionInfo)
    (h : info.type ∉ supportedTypes) :
    optionInfoToSchema info isCLI optionInfos = .error ("Unexpected type " ++ info.type) := by
  simp only [supportedTypes, List.mem_cons, List.mem_singleton, List.not_mem_nil, or_false,
    not_or] at h
  obtain ⟨h1, h2, h3, h4, h5⟩ := h
  unfold optionInfoToSchema
  rw [if_neg h1, if_neg h2, if_neg h3, if_neg h4, if_neg h5]

theorem toSchema_ok_of_supported {info : OptionInfo} (isCLI : Bool)
    (optionInfos : List OptionInfo) (h : info.type ∈ supportedTypes) :
    ∃ s, optionInfoToSchema info isCLI optionInfos = .ok s := by
  simp only [supportedTypes, List.mem_cons, List.mem_singleton, List.not_mem_nil, or_false]
    at h
  rcases h with h | h | h | h | h
  · exact ⟨_, toSchema_of_type_int isCLI optionInfos h⟩
  · exact ⟨_, toSchema_of_type_choice isCLI optionInfos h⟩
  · exact ⟨_, toSchema_of_type_boolean isCLI optionInfos h⟩
  · exact ⟨_, toSchema_of_type_flag isCLI optionInfos h⟩
  · exact ⟨_, toSchema_of_type_path isCLI optionInfos h⟩

theorem toSchema_validate_of_supported {info : OptionInfo} (isCLI : Bool)
    (optionInfos : List OptionInfo) (h : info.type ∈ supportedTypes) :
    ∃ s, optionInfoToSchema info isCLI optionInfos = .ok s ∧
      schemaValidate s = some (validateWrapperOf info) ∧
      schemaRedirect s = info.redirect := by
  simp only [supportedTypes, List.mem_cons, List.mem_singleton, List.not_mem_nil, or_false]
    at h
  rcases h with h | h | h | h | h
  · exact ⟨_, toSchema_of_type_int isCLI optionInfos h,
      schemaValidate_finishSchema .., schemaRedirect_finishSchema ..⟩
  · exact ⟨_, toSchema_of_type_choice isCLI optionInfos h,
      schemaValidate_finishSchema .., schemaRedirect_finishSchema ..⟩
  · exact ⟨_, toSchema_of_type_boolean isCLI optionInfos h,
      schemaValidate_finishSchema .., schemaRedirect_finishSchema ..⟩
  · exact ⟨_, toSchema_of_type_flag isCLI optionInfos h,
      schemaValidate_finishSchema .., schemaRedirect_finishSchema ..⟩
  · exact ⟨_, toSchema_of_type_path isCLI optionInfos h,
      schemaValidate_finishSchema .., schemaRedirect_finishSchema ..⟩

theorem schemasForInfos_ok (full : List OptionInfo) (b : Bool) :
    ∀ rest : List OptionInfo, (∀ i ∈ rest, i.type ∈ supportedTypes) →
      ∃ ss, schemasForInfos full b rest = .ok ss := by
  intro rest
  induction rest with
  | nil => exact fun _ => ⟨[], rfl⟩
  | cons info tl ih =>
    intro h
    obtain ⟨s, hs⟩ := toSchema_ok_of_supported b full (h info (by simp))
    obtain ⟨tail, ht⟩ := ih (fun i hi => h i (List.mem_cons_of_mem _ hi))
    simp only [schemasForInfos, hs, ht]
    exact ⟨_, rfl⟩

theorem schemasForInfos_error (full : List OptionInfo) (b : Bool) :
    ∀ (pre : List OptionInfo) (bad : OptionInfo) (post : List OptionInfo),
      (∀ i ∈ pre, i.type ∈ supportedTypes) → bad.type ∉ supportedTypes →
      schemasForInfos full b (pre ++ bad :: post) =
        .error ("Unexpected type " ++ bad.type) := by
  intro pre
  induction pre with
  | nil =>
    intro bad post _ hbad
    rw [List.nil_append]
    simp only [schemasForInfos, toSchema_of_type_unknown b full hbad]
  | cons info tl ih =>
    intro bad post hpre hbad
    obtain ⟨s, hs⟩ := toSchema_ok_of_supported b full (hpre info (by simp))
    have hrec := ih bad post (fun i hi => hpre i (List.mem_cons_of_mem _ hi)) hbad
    rw [List.cons_append]
    simp only [schemasForInfos, hs, hrec]

theorem length_ne_zero_of_ne_empty {s : String} (h : s ≠ "") : s.length ≠ 0 := by
  intro h0
  apply h
  cases s with
  | mk data =>
    simp only [String.length] at h0
    simp only [List.length_eq_zero] at h0
    simp [h0]

/-! ### Claim theorems -/

/-- C1: a descriptor list whose every `type` is one of the five
recognized kinds builds its schemas (and the engine call) without
throwing; a list containing a descriptor of any other type makes
schema construction — and hence `normalizeOptions`, for every raw
options mapping — fail with `Unexpected type <type>` for the first
offending descriptor, before the engine call is ever constructed. -/
theorem unrecognized_type_throws (infos : List OptionInfo) :
    ((∀ i ∈ infos, i.type ∈ supportedTypes) →
      (∀ b, ∃ ss, optionInfosToSchemas infos b = .ok ss)
      ∧ (∀ options opts, ∃ call, normalizeOptions options infos opts = .ok call))
    ∧ (∀ (pre : List OptionInfo) (bad : OptionInfo) (post : List OptionInfo),
        infos = pre ++ bad :: post →
        (∀ i ∈ pre, i.type ∈ supportedTypes) → bad.type ∉ supportedTypes →
        (∀ b, optionInfosToSchemas infos b = .error ("Unexpected type " ++ bad.type))
        ∧ (∀ options opts, normalizeOptions options infos opts =
            .error ("Unexpected type " ++ bad.type))) := by
  constructor
  · intro h
    have hok : ∀ b, ∃ ss, optionInfosToSchemas infos b = .ok ss := by
      intro b
      obtain ⟨ss, hss⟩ := schemasForInfos_ok infos b infos h
      simp only [optionInfosToSchemas, hss]
      exact ⟨_, rfl⟩
    refine ⟨hok, ?_⟩
    intro options opts
    obtain ⟨ss, hss⟩ := hok (opts.isCLI.getD false)
    simp only [normalizeOptions, hss]
    exact ⟨_, rfl⟩
  · intro pre bad post heq hpre hbad
    have herr : ∀ b, optionInfosToSchemas infos b =
        .error ("Unexpected type " ++ bad.type) := by
      intro b
      have := schemasForInfos_error infos b pre bad post hpre hbad
      rw [← heq] at this
      simp only [optionInfosToSchemas, this]
    refine ⟨herr, ?_⟩
    intro options opts
    simp only [normalizeOptions, herr (opts.isCLI.getD false)]

/-- Descriptor list entries used to exercise the C1 theorem. -/
def c1Good : OptionInfo := { name := "useTabs", type := "boolean" }

/-- A descriptor with an unrecognized type. -/
def c1Bad : OptionInfo := { name := "mystery", type := "bogus" }

/-- Witness for C1 at concrete inputs: an all-recognized list builds,
and a list with a bogus type makes the whole normalization call fail
with the naming error no matter what raw options are supplied. -/
theorem unrecognized_type_throws_witness :
    (∃ ss, optionInfosToSchemas [c1Good] false = .ok ss)
    ∧ normalizeOptions [("mystery", JSValue.num 1)] [c1Good, c1Bad] {} =
        .error "Unexpected type bogus"
    ∧ normalizeOptions [] [c1Good, c1Bad] {} = .error "Unexpected type bogus" := by
  refine ⟨((unrecognized_type_throws [c1Good]).1 ?_).1 false, ?_, ?_⟩
  · intro i hi
    rw [List.mem_singleton] at hi
    rw [hi]
    decide
  · exact ((unrecognized_type_throws [c1Good, c1Bad]).2 [c1Good] c1Bad [] rfl
      (by intro i hi; rw [List.mem_singleton] at hi; rw [hi]; decide) (by decide)).2
      [("mystery", JSValue.num 1)] {}
  · exact ((unrecognized_type_throws [c1Good, c1Bad]).2 [c1Good] c1Bad [] rfl
      (by intro i hi; rw [List.mem_singleton] at hi; rw [hi]; decide) (by decide)).2 [] {}

/-- A concrete `utils` for exercising `FlagSchema.preprocess`: renders
values with the string conversion. -/
def flagUtilsEx : FlagUtils := { descriptorValue := jsToString }

/-- C2 counterexample: with flag universe `[""]` and input `"a"` — a
non-empty string absent from the flags, with a flag (the empty string)
at distance 1 < 3 — `preprocess` returns the value unchanged and emits
no warning, because the truthiness test `if (suggestion)` rejects the
found empty-string flag.  The claim predicts the suggestion is returned
with one warning. -/
theorem flag_preprocess_cex :
    ("a" ∉ ([""] : List String))
    ∧ leven "" "a" < 3
    ∧ (FlagSchemaData.make "f" [""]).preprocess (JSValue.str "a") flagUtilsEx =
        (JSValue.str "a", []) := by
  refine ⟨by decide, by decide, ?_⟩
  rfl

/-- C2 (amended): for a non-empty string value that is not a known
flag, if the first sorted flag at Levenshtein distance < 3 exists and
is non-empty, `preprocess` returns it with exactly one warning; in
every other case — no flag within distance < 3, value already a known
flag, empty-string value, non-string value, or the first matching
sorted flag being the empty string (which fails the truthiness check) —
the value is returned unchanged with no warning. -/
theorem flag_preprocess_behavior (name : String) (flags : List String) (utils : FlagUtils) :
    (∀ s sugg, s ≠ "" → s ∉ flags →
      (sortFlags flags).find? (fun f => decide (leven f s < 3)) = some sugg → sugg ≠ "" →
      (FlagSchemaData.make name flags).preprocess (JSValue.str s) utils =
        (JSValue.str sugg, [flagWarning utils (JSValue.str s) sugg])
      ∧ sugg ∈ flags ∧ leven sugg s < 3)
    ∧ (∀ s, s ≠ "" → s ∉ flags → (∀ f ∈ flags, ¬ leven f s < 3) →
      (FlagSchemaData.make name flags).preprocess (JSValue.str s) utils = (JSValue.str s, []))
    ∧ (∀ s, s ∈ flags →
      (FlagSchemaData.make name flags).preprocess (JSValue.str s) utils = (JSValue.str s, []))
    ∧ ((FlagSchemaData.make name flags).preprocess (JSValue.str "") utils =
        (JSValue.str "", []))
    ∧ (∀ v, (∀ s, v ≠ JSValue.str s) →
      (FlagSchemaData.make name flags).preprocess v utils = (v, []))
    ∧ (∀ s, s ≠ "" → s ∉ flags →
      (sortFlags flags).find? (fun f => decide (leven f s < 3)) = some "" →
      (FlagSchemaData.make name flags).preprocess (JSValue.str s) utils =
        (JSValue.str s, [])) := by
  refine ⟨?_, ?_, ?_, ?_, ?_, ?_⟩
  · intro s sugg hs hmem hfind hsugg
    have hmem' : s ∉ sortFlags flags := fun h => hmem (mem_sortFlags.mp h)
    refine ⟨?_, mem_sortFlags.mp (List.mem_of_find?_eq_some hfind),
      by simpa using List.find?_some hfind⟩
    simp only [FlagSchemaData.make, FlagSchemaData.preprocess]
    rw [if_pos ⟨length_ne_zero_of_ne_empty hs, hmem'⟩, hfind]
    exact if_pos hsugg
  · intro s hs hmem hno
    have hmem' : s ∉ sortFlags flags := fun h => hmem (mem_sortFlags.mp h)
    have hfind : (sortFlags flags).find? (fun f => decide (leven f s < 3)) = none :=
      List.find?_eq_none.mpr (fun f hf => by simpa using hno f (mem_sortFlags.mp hf))
    simp only [FlagSchemaData.make, FlagSchemaData.preprocess]
    rw [if_pos ⟨length_ne_zero_of_ne_empty hs, hmem'⟩, hfind]
  · intro s hs
    simp only [FlagSchemaData.make, FlagSchemaData.preprocess]
    rw [if_neg (fun hc => hc.2 (mem_sortFlags.mpr hs))]
  · simp only [FlagSchemaData.make, FlagSchemaData.preprocess]
    rw [if_neg (fun hc => hc.1 rfl)]
  · intro v hv
    cases v with
    | str s => exact absurd rfl (hv s)
    | undef => rfl
    | null => rfl
    | bool b => rfl
    | num n => rfl
    | arr xs => rfl
  · intro s hs hmem hfind
    have hmem' : s ∉ sortFlags flags := fun h => hmem (mem_sortFlags.mp h)
    simp only [FlagSchemaData.make, FlagSchemaData.preprocess]
    rw [if_pos ⟨length_ne_zero_of_ne_empty hs, hmem'⟩, hfind]
    simp

/-- Witness for C2 at the spec's own examples: flags
`["foo", "bar"]`, input `"fooo"` substitutes `"foo"` with one warning;
`"zzz"` and the already-known `"bar"` pass through silently. -/
theorem flag_preprocess_behavior_witness :
    (FlagSchemaData.make "f" ["foo", "bar"]).preprocess (JSValue.str "fooo") flagUtilsEx =
      (JSValue.str "foo", [flagWarning flagUtilsEx (JSValue.str "fooo") "foo"])
    ∧ (FlagSchemaData.make "f" ["foo", "bar"]).preprocess (JSValue.str "zzz") flagUtilsEx =
      (JSValue.str "zzz", [])
    ∧ (FlagSchemaData.make "f" ["foo", "bar"]).preprocess (JSValue.str "bar") flagUtilsEx =
      (JSValue.str "bar", []) := by
  refine ⟨((flag_preprocess_behavior "f" ["foo", "bar"] flagUtilsEx).1 "fooo" "foo"
      (by decide) (by decide) (by decide) (by decide)).1, ?_, ?_⟩
  · exact (flag_preprocess_behavior "f" ["foo", "bar"] flagUtilsEx).2.1 "zzz"
      (by decide) (by decide) (by decide)
  · exact (flag_preprocess_behavior "f" ["foo", "bar"] flagUtilsEx).2.2.1 "bar" (by decide)

/-- C3: the unknown-key policy — falsy `passThrough` selects the
engine's built-in leven handler; a list passes a contained key through
as `{key: value}` and drops non-contained keys; any other truthy value
passes every unknown key through.  The handler installed in the engine
call is exactly the one selected from the resolved `passThrough`. -/
theorem unknown_option_policy (pt : JSValue) (key : String) (value : JSValue) :
    (jsTruthy pt = false → selectUnknown pt = .levenUnknown)
    ∧ (∀ names, pt = .arr names →
        selectUnknown pt = .passList names
        ∧ ((∃ n ∈ names, jsStrictEqString n key = true) →
            (selectUnknown pt).applyCustom key value = some (some (key, value)))
        ∧ ((∀ n ∈ names, jsStrictEqString n key = false) →
            (selectUnknown pt).applyCustom key value = some none))
    ∧ (jsTruthy pt = true → (∀ names, pt ≠ JSValue.arr names) →
        selectUnknown pt = .passAll
        ∧ (selectUnknown pt).applyCustom key value = some (some (key, value)))
    ∧ (∀ options optionInfos opts call,
        normalizeOptions options optionInfos opts = .ok call →
        call.unknown = selectUnknown (opts.passThrough.getD (JSValue.bool false))) := by
  refine ⟨?_, ?_, ?_, ?_⟩
  · intro h
    simp [selectUnknown, h]
  · intro names hpt
    subst hpt
    have hsel : selectUnknown (JSValue.arr names) = .passList names := by
      simp [selectUnknown, jsTruthy]
    refine ⟨hsel, ?_, ?_⟩
    · intro hex
      rw [hsel]
      simp [UnknownHandler.applyCustom, List.any_eq_true.mpr hex]
    · intro hall
      have hany : names.any (fun n => jsStrictEqString n key) = false :=
        List.any_eq_false.mpr (fun n hn => by simp [hall n hn])
      rw [hsel]
      simp [UnknownHandler.applyCustom, hany]
  · intro htru hne
    have hsel : selectUnknown pt = .passAll := by
      cases pt with
      | arr names => exact absurd rfl (hne names)
      | undef => simp [jsTruthy] at htru
      | null => simp [jsTruthy] at htru
      | bool b => simp [selectUnknown, htru]
      | num n => simp [selectUnknown, htru]
      | str s => simp [selectUnknown, htru]
    exact ⟨hsel, by rw [hsel]; rfl⟩
  · intro options optionInfos opts call h
    simp only [normalizeOptions] at h
    cases hs : optionInfosToSchemas optionInfos (opts.isCLI.getD false) with
    | error e => rw [hs] at h; exact absurd h (by simp)
    | ok ss =>
      rw [hs] at h
      cases h
      rfl

/-- Witness for C3 at concrete inputs: falsy policy picks the built-in
handler; the list `["semi"]` keeps unknown key "semi" and drops "tabs";
the truthy non-list `1` keeps every unknown key. -/
theorem unknown_option_policy_witness :
    selectUnknown (JSValue.bool false) = .levenUnknown
    ∧ (selectUnknown (JSValue.arr [JSValue.str "semi"])).applyCustom "semi"
        (JSValue.bool true) = some (some ("semi", JSValue.bool true))
    ∧ (selectUnknown (JSValue.arr [JSValue.str "semi"])).applyCustom "tabs"
        (JSValue.bool true) = some none
    ∧ (selectUnknown (JSValue.num 1)).applyCustom "anything" JSValue.null
        = some (some ("anything", JSValue.null)) := by
  refine ⟨(unknown_option_policy (JSValue.bool false) "x" JSValue.null).1 rfl, ?_, ?_, ?_⟩
  · exact ((unknown_option_policy (JSValue.arr [JSValue.str "semi"]) "semi"
      (JSValue.bool true)).2.1 [JSValue.str "semi"] rfl).2.1
      ⟨JSValue.str "semi", by simp, rfl⟩
  · exact ((unknown_option_policy (JSValue.arr [JSValue.str "semi"]) "tabs"
      (JSValue.bool true)).2.1 [JSValue.str "semi"] rfl).2.2
      (by intro n hn; rw [List.mem_singleton] at hn; rw [hn]; rfl)
  · exact ((unknown_option_policy (JSValue.num 1) "anything" JSValue.null).2.2.1 rfl
      (fun names h => JSValue.noConfusion h)).2

/-- C4 counterexample: with `opts = {isCLI: true}` the API entry point
behaves like the CLI mode (its engine call uses the CLI descriptor
strategy), differing from the general normalizer with `isCLI` fixed to
false; symmetrically, `opts = {isCLI: false}` makes the CLI entry point
behave like the API mode, so the entry points do not fix `isCLI`. -/
theorem entry_points_cex :
    (normalizeApiOptions [] [] { isCLI := some true }).map EngineCall.descriptor =
      .ok DescriptorStrategy.cli
    ∧ (normalizeOptions [] [] { isCLI := some false }).map EngineCall.descriptor =
      .ok DescriptorStrategy.api
    ∧ DescriptorStrategy.cli ≠ DescriptorStrategy.api
    ∧ (normalizeCliOptions [] [] { isCLI := some false }).map EngineCall.descriptor =
      .ok DescriptorStrategy.api
    ∧ (normalizeOptions [] [] { isCLI := some true }).map EngineCall.descriptor =
      .ok DescriptorStrategy.cli := by
  exact ⟨rfl, rfl, by decide, rfl, rfl⟩

/-- C4 (amended): `normalizeApiOptions` passes its settings through
unchanged (so `isCLI` is false only as the general normalizer's default
when the settings omit it), and `normalizeCliOptions` merges
`{isCLI: true}` underneath the provided settings, so an explicit
`isCLI` in the settings overrides it; when the settings do not supply
`isCLI`, the two entry points coincide with the general normalizer at
`isCLI = false` and `isCLI = true` respectively. -/
theorem entry_points_behavior (options : List (String × JSValue))
    (optionInfos : List OptionInfo) (opts : NormalizeArgs) :
    normalizeApiOptions options optionInfos opts = normalizeOptions options optionInfos opts
    ∧ normalizeCliOptions options optionInfos opts =
        normalizeOptions options optionInfos
          { logger := opts.logger, isCLI := some (opts.isCLI.getD true),
            passThrough := opts.passThrough }
    ∧ (opts.isCLI = none →
        normalizeApiOptions options optionInfos opts =
          normalizeOptions options optionInfos { opts with isCLI := some false }
        ∧ normalizeCliOptions options optionInfos opts =
          normalizeOptions options optionInfos { opts with isCLI := some true }) := by
  refine ⟨rfl, rfl, ?_⟩
  intro h
  constructor
  · simp [normalizeApiOptions, normalizeOptions, h]
  · simp [normalizeCliOptions, normalizeOptions, h]

/-- Witness for C4 at concrete settings without `isCLI`: both entry
points agree with the general normalizer at the corresponding fixed
`isCLI`. -/
theorem entry_points_behavior_witness :
    normalizeApiOptions [] [c1Good] {} =
      normalizeOptions [] [c1Good] { isCLI := some false }
    ∧ normalizeCliOptions [] [c1Good] {} =
      normalizeOptions [] [c1Good] { isCLI := some true } :=
  (entry_points_behavior [] [c1Good] {}).2.2 rfl

/-- C5: with an `exception` predicate the effective validator accepts
exactly when the predicate is truthy or normal validation accepts;
without one it accepts `undefined` unconditionally and otherwise defers
to normal validation.  The wrapper is the `validate` installed on the
schema built for every recognized descriptor type. -/
theorem exception_validate_override (info : OptionInfo) (base : JSValue → Bool) (v : JSValue) :
    (∀ p, info.exception = some p →
      (validateWrapperOf info).run base v = (p v || base v))
    ∧ (info.exception = none →
      (validateWrapperOf info).run base JSValue.undef = true
      ∧ (v ≠ JSValue.undef → (validateWrapperOf info).run base v = base v))
    ∧ (∀ isCLI optionInfos, info.type ∈ supportedTypes →
      ∃ s, optionInfoToSchema info isCLI optionInfos = .ok s ∧
        schemaValidate s = some (validateWrapperOf info)) := by
  refine ⟨?_, ?_, ?_⟩
  · intro p hp
    simp [validateWrapperOf, hp, ValidateWrapper.run]
  · intro h
    refine ⟨by simp [validateWrapperOf, h, ValidateWrapper.run], ?_⟩
    intro hv
    cases v with
    | undef => exact absurd rfl hv
    | null => simp [validateWrapperOf, h, ValidateWrapper.run]
    | bool b => simp [validateWrapperOf, h, ValidateWrapper.run]
    | num n => simp [validateWrapperOf, h, ValidateWrapper.run]
    | str s => simp [validateWrapperOf, h, ValidateWrapper.run]
    | arr xs => simp [validateWrapperOf, h, ValidateWrapper.run]
  · intro isCLI optionInfos h
    obtain ⟨s, hs, hv, _⟩ := toSchema_validate_of_supported isCLI optionInfos h
    exact ⟨s, hs, hv⟩

/-- The `exception` predicate of the spec's example:
`v => v === "special"`. -/
def c5Exception (v : JSValue) : Bool := jsStrictEqString v "special"

/-- A choice descriptor with the example `exception` predicate. -/
def c5Info : OptionInfo :=
  { name := "proseWrap", type := "choice", exception := some c5Exception }

/-- A descriptor with no `exception`. -/
def c5Plain : OptionInfo := { name := "filepath", type := "path" }

/-- Witness for C5 at concrete inputs: the exception predicate lets
`"special"` through even when normal validation rejects everything;
without an exception, `undefined` is always accepted and other values
defer to normal validation. -/
theorem exception_validate_override_witness :
    (validateWrapperOf c5Info).run (fun _ => false) (JSValue.str "special") = true
    ∧ (validateWrapperOf c5Plain).run (fun _ => false) JSValue.undef = true
    ∧ (validateWrapperOf c5Plain).run (fun _ => false) (JSValue.str "x") = false := by
  refine ⟨?_, ?_, ?_⟩
  · have h := (exception_validate_override c5Info (fun _ => false)
      (JSValue.str "special")).1 c5Exception rfl
    rw [h]
    rfl
  · exact ((exception_validate_override c5Plain (fun _ => false) JSValue.undef).2.1 rfl).1
  · have h := ((exception_validate_override c5Plain (fun _ => false)
      (JSValue.str "x")).2.1 rfl).2 (fun hc => JSValue.noConfusion hc)
    rw [h]

theorem foldl_append_init {α : Type} :
    ∀ (xs : List (List α)) (acc : List α),
      xs.foldl (fun a b => a ++ b) acc = acc ++ xs.foldl (fun a b => a ++ b) [] := by
  intro xs
  induction xs with
  | nil => simp
  | cons x t ih =>
    intro acc
    simp only [List.foldl_cons]
    rw [ih (acc ++ x), ih ([] ++ x)]
    simp

/-- A descriptor with a present-but-empty alias, exercising the C6
truthiness tests. -/
def c6Info : OptionInfo :=
  { name := "cursorOffset", type := "flag", aliasName := some "" }

/-- C6 counterexample: a descriptor whose alias is present but equal to
the empty string contributes nothing to the flag universe — the
truthiness test `optionInfo.alias || []` drops it — whereas the claim's
"that descriptor's alias when present" predicts the universe `[""]`. -/
theorem flag_universe_cex :
    c6Info.aliasName = some ""
    ∧ collectFlags [c6Info] = []
    ∧ ([] : List String) ≠ [""] := by
  exact ⟨rfl, rfl, by decide⟩

/-- C6 (amended): every flag-type descriptor's schema receives as flag
universe `collectFlags` of the full descriptor list, which
concatenates, over every descriptor in order: its alias when truthy
(present and non-empty), its own name when its description is truthy,
and `no-<name>` when its opposite-description is truthy. -/
theorem flag_universe (optionInfos : List OptionInfo) (info : OptionInfo) (isCLI : Bool) :
    (info.type = "flag" →
      optionInfoToSchema info isCLI optionInfos =
        .ok (finishSchema info isCLI
          { name := info.name, kind := .flag, flags := collectFlags optionInfos,
            validate := validateWrapperOf info }))
    ∧ collectFlags [] = []
    ∧ (∀ i rest, collectFlags (i :: rest) =
        ((match i.aliasName with
          | some a => if a = "" then [] else [a]
          | none => [])
         ++ (if optStrTruthy i.description then [i.name] else [])
         ++ (if optStrTruthy i.oppositeDescription then ["no-" ++ i.name] else []))
        ++ collectFlags rest) := by
  refine ⟨fun h => toSchema_of_type_flag isCLI optionInfos h, rfl, ?_⟩
  intro i rest
  show collectFlags (i :: rest) = descriptorFlags i ++ collectFlags rest
  simp only [collectFlags, List.map_cons, List.foldl_cons]
  rw [foldl_append_init]
  simp

/-- A flag-type descriptor declaring a description. -/
def c6wInfo : OptionInfo := { name := "x", type := "flag", description := some "d" }

/-- A non-flag descriptor with an alias and an opposite-description,
showing that the full list is scanned. -/
def c6wInfo2 : OptionInfo :=
  { name := "y", type := "boolean", aliasName := some "z",
    oppositeDescription := some "o" }

/-- Witness for C6 at a concrete list: the flag schema for `x` collects
`x` (described), `z` (the other descriptor's alias) and `no-y` (that
descriptor's opposite-description). -/
theorem flag_universe_witness :
    optionInfoToSchema c6wInfo false [c6wInfo, c6wInfo2] =
      .ok (Schema.base
        { name := "x", kind := .flag, flags := ["x", "z", "no-y"],
          validate := ValidateWrapper.undefOr }) := by
  have h := (flag_universe [c6wInfo, c6wInfo2] c6wInfo false).1 rfl
  rw [h]
  rfl

/-- C7: the redirect handler attached for a descriptor declaring a
redirect returns `undefined` on every falsy value of the option and
`{to: {key: redirect.option, value: redirect.value}}` on every truthy
value; the redirect record is carried by the schema built for every
recognized type. -/
theorem redirect_handler_behavior (info : OptionInfo) (r : Redirect) (v : JSValue) :
    (jsTruthy v = false → runRedirectHandler r v = none)
    ∧ (jsTruthy v = true →
        runRedirectHandler r v = some { key := r.option, value := r.value })
    ∧ (info.redirect = some r → info.type ∈ supportedTypes →
        ∀ isCLI optionInfos, ∃ s, optionInfoToSchema info isCLI optionInfos = .ok s ∧
          schemaRedirect s = some r) := by
  refine ⟨?_, ?_, ?_⟩
  · intro h
    simp [runRedirectHandler, h]
  · intro h
    simp [runRedirectHandler, h]
  · intro hr htype isCLI optionInfos
    obtain ⟨s, hs, _, hred⟩ := toSchema_validate_of_supported isCLI optionInfos htype
    exact ⟨s, hs, by rw [hred, hr]⟩

/-- A concrete redirect declaration. -/
def c7Redirect : Redirect := { option := "endOfLine", value := JSValue.str "lf" }

/-- Witness for C7 at concrete values: falsy option values
(`false`, `undefined`, `0`, `""`) yield no redirect; truthy ones yield
the `{key, value}` target. -/
theorem redirect_handler_behavior_witness :
    runRedirectHandler c7Redirect (JSValue.bool false) = none
    ∧ runRedirectHandler c7Redirect JSValue.undef = none
    ∧ runRedirectHandler c7Redirect (JSValue.str "") = none
    ∧ runRedirectHandler c7Redirect (JSValue.bool true) =
        some { key := "endOfLine", value := JSValue.str "lf" }
    ∧ runRedirectHandler c7Redirect (JSValue.str "x") =
        some { key := "endOfLine", value := JSValue.str "lf" } := by
  refine ⟨(redirect_handler_behavior c5Plain c7Redirect (JSValue.bool false)).1 rfl,
    (redirect_handler_behavior c5Plain c7Redirect JSValue.undef).1 rfl,
    (redirect_handler_behavior c5Plain c7Redirect (JSValue.str "")).1 rfl,
    (redirect_handler_behavior c5Plain c7Redirect (JSValue.bool true)).2.1 rfl,
    (redirect_handler_behavior c5Plain c7Redirect (JSValue.str "x")).2.1 rfl⟩

/-- C8: the CLI descriptor strategy renders single-character keys as
`-x` and longer keys as `--name`; pairs render as `--no-key` for
`false`, the rendered key alone for `true`, the rendered key plus
" without an argument" for the empty string, and `key=value`
otherwise. -/
theorem cli_rendering (key : String) (value : JSValue) :
    (key.length = 1 → cliKey key = "-" ++ key)
    ∧ (1 < key.length → cliKey key = "--" ++ key)
    ∧ cliPair key (JSValue.bool false) = "--no-" ++ key
    ∧ cliPair key (JSValue.bool true) = cliKey key
    ∧ cliPair key (JSValue.str "") = cliKey key ++ " without an argument"
    ∧ (value ≠ JSValue.bool false → value ≠ JSValue.bool true → value ≠ JSValue.str "" →
        cliPair key value = cliKey key ++ "=" ++ jsToString value) := by
  refine ⟨?_, ?_, rfl, rfl, rfl, ?_⟩
  · intro h
    simp [cliKey, h]
  · intro h
    rw [cliKey, if_neg (by omega)]
  · intro h1 h2 h3
    cases value with
    | bool b => cases b with
      | false => exact absurd rfl h1
      | true => exact absurd rfl h2
    | str s =>
      have hs : s ≠ "" := fun h => h3 (by rw [h])
      simp only [cliPair]
      rw [if_neg hs]
    | undef => rfl
    | null => rfl
    | num n => rfl
    | arr xs => rfl

/-- Witness for C8 at concrete keys and values. -/
theorem cli_rendering_witness :
    cliKey "w" = "-w"
    ∧ cliKey "tabWidth" = "--tabWidth"
    ∧ cliPair "x" (JSValue.bool false) = "--no-x"
    ∧ cliPair "x" (JSValue.bool true) = "-x"
    ∧ cliPair "x" (JSValue.str "") = "-x without an argument"
    ∧ cliPair "x" (JSValue.str "y") = "-x=y" := by
  refine ⟨(cli_rendering "w" JSValue.null).1 rfl, ?_, ?_, ?_, ?_, ?_⟩
  · exact (cli_rendering "tabWidth" JSValue.null).2.1 (by decide)
  · exact (cli_rendering "x" JSValue.null).2.2.1
  · exact (cli_rendering "x" JSValue.null).2.2.2.1
  · exact (cli_rendering "x" JSValue.null).2.2.2.2.1
  · exact (cli_rendering "x" (JSValue.str "y")).2.2.2.2.2
      (fun h => JSValue.noConfusion h) (fun h => JSValue.noConfusion h)
      (fun h => absurd (JSValue.str.inj h) (by decide))

/-- C9: `FlagSchema.preprocess` is total — modelled as a plain function,
matching the method's lack of throw sites — and it either returns the
value unchanged with no logging, or performs the close-match
substitution, in which case exactly one warning is written through the
provided logger. -/
theorem flag_preprocess_safe (d : FlagSchemaData) (value : JSValue) (utils : FlagUtils) :
    d.preprocess value utils = (value, [])
    ∨ ((d.preprocess value utils).2.length = 1
       ∧ ∃ s sugg, value = JSValue.str s ∧ s ∉ d.sortedFlags ∧ sugg ∈ d.sortedFlags
         ∧ d.preprocess value utils =
             (JSValue.str sugg, [flagWarning utils value sugg])) := by
  cases value with
  | undef => exact Or.inl rfl
  | null => exact Or.inl rfl
  | bool b => exact Or.inl rfl
  | num n => exact Or.inl rfl
  | arr xs => exact Or.inl rfl
  | str s =>
    by_cases hcond : s.length ≠ 0 ∧ s ∉ d.sortedFlags
    · cases hfind : d.sortedFlags.find? (fun flag => decide (leven flag s < 3)) with
      | none =>
        left
        simp only [FlagSchemaData.preprocess]
        rw [if_pos hcond, hfind]
      | some sugg =>
        by_cases hsugg : sugg ≠ ""
        · right
          have heq : d.preprocess (JSValue.str s) utils =
              (JSValue.str sugg, [flagWarning utils (JSValue.str s) sugg]) := by
            simp only [FlagSchemaData.preprocess]
            rw [if_pos hcond, hfind]
            exact if_pos hsugg
          refine ⟨by rw [heq]; rfl, s, sugg, rfl, hcond.2,
            List.mem_of_find?_eq_some hfind, heq⟩
        · left
          simp only [FlagSchemaData.preprocess]
          rw [if_pos hcond, hfind]
          exact if_neg hsugg
    · left
      simp only [FlagSchemaData.preprocess]
      rw [if_neg hcond]

/-- C10: for an array descriptor the redirect and deprecation handlers
are attached to the wrapping array schema, while the
exception/undefined `validate` wrapper is attached to the element value
schema, which carries no handlers of its own; with no `exception`, the
per-element wrapper accepts an `undefined` element unconditionally. -/
theorem array_handler_placement (info : OptionInfo) (isCLI : Bool)
    (optionInfos : List OptionInfo) :
    info.array = true → info.type ∈ supportedTypes →
    ∃ a : ArraySchemaData,
      optionInfoToSchema info isCLI optionInfos = .ok (.array a)
      ∧ a.redirect = info.redirect
      ∧ a.deprecated = info.deprecated
      ∧ a.valueSchema.redirect = none
      ∧ a.valueSchema.deprecated = false
      ∧ a.valueSchema.validate = validateWrapperOf info
      ∧ (info.exception = none →
          ∀ base : JSValue → Bool,
            a.valueSchema.validate.run base JSValue.undef = true) := by
  intro harr htype
  have hfin : ∀ b : BaseSchema, finishSchema info isCLI b =
      .array { concatPreprocess := isCLI, redirect := info.redirect,
               deprecated := info.deprecated, valueSchema := b } := by
    intro b
    unfold finishSchema
    rw [if_pos harr]
  simp only [supportedTypes, List.mem_cons, List.mem_singleton, List.not_mem_nil, or_false]
    at htype
  have hrun : info.exception = none →
      ∀ base : JSValue → Bool,
        (validateWrapperOf info).run base JSValue.undef = true := by
    intro hexc base
    simp [validateWrapperOf, hexc, ValidateWrapper.run]
  rcases htype with h | h | h | h | h
  · exact ⟨_, by rw [toSchema_of_type_int isCLI optionInfos h, hfin],
      rfl, rfl, rfl, rfl, rfl, hrun⟩
  · exact ⟨_, by rw [toSchema_of_type_choice isCLI optionInfos h, hfin],
      rfl, rfl, rfl, rfl, rfl, hrun⟩
  · exact ⟨_, by rw [toSchema_of_type_boolean isCLI optionInfos h, hfin],
      rfl, rfl, rfl, rfl, rfl, hrun⟩
  · exact ⟨_, by rw [toSchema_of_type_flag isCLI optionInfos h, hfin],
      rfl, rfl, rfl, rfl, rfl, hrun⟩
  · exact ⟨_, by rw [toSchema_of_type_path isCLI optionInfos h, hfin],
      rfl, rfl, rfl, rfl, rfl, hrun⟩

/-- A deprecated, redirected array descriptor. -/
def c10Info : OptionInfo :=
  { name := "plugins", type := "path", array := true,
    redirect := some c7Redirect, deprecated := true }

/-- Witness for C10 at a concrete array descriptor: handlers land on
the array schema, the value schema keeps only the validate wrapper, and
an `undefined` element is accepted. -/
theorem array_handler_placement_witness :
    ∃ a : ArraySchemaData,
      optionInfoToSchema c10Info true [c10Info] = .ok (.array a)
      ∧ a.redirect = some c7Redirect
      ∧ a.deprecated = true
      ∧ a.valueSchema.redirect = none
      ∧ a.valueSchema.deprecated = false
      ∧ a.valueSchema.validate.run (fun _ => false) JSValue.undef = true := by
  obtain ⟨a, h1, h2, h3, h4, h5, h6, h7⟩ :=
    array_handler_placement c10Info true [c10Info] rfl (by decide)
  exact ⟨a, h1, by rw [h2]; rfl, by rw [h3]; rfl, h4, h5, h7 rfl (fun _ => false)⟩
